import Mathlib

/-!
Shallow embedding of `src/core/thread/csl_tx_scheduler.cpp`, the OpenThread
CSL (Coordinated Sampled Listening) transmission scheduler, together with
proofs about its window-timing computation, candidate selection, frame
preparation and completion handling.

Machine integers are modelled as `Nat`.  The `static_cast<uint32_t>` casts of
the source are modelled with an explicit `% 2 ^ 32`; 64-bit radio times are
modelled as mathematical naturals (radio time in microseconds stays far below
`2 ^ 64` for any physically realisable uptime, so 64-bit wraparound never
occurs on the modelled domain).
-/

namespace CslTx

/-- Microseconds per ten radio symbols (`kUsPerTenSymbols`, 160 us at the
2.4 GHz O-QPSK PHY symbol rate used by the source). -/
def kUsPerTenSymbols : Nat := 160

/-- Modelled from the spec: the candidate scan of `RescheduleCslTx` starts its
running minimum from the largest representable 32-bit delay
(`Time::kMaxDuration`, declared in a time header of the repository that is not
under `src/`). -/
def kMaxDuration : Nat := 2 ^ 32 - 1

/-- Per-child CSL record.  The fields mirror the `Child` accessors used by
`csl_tx_scheduler.cpp`: CSL synchronisation state, period/phase (in ten-symbol
units, 16-bit in the source), the radio timestamp of the last received frame,
attempt counters, the pending indirect message (modelled by an optional
message identifier) and the retransmission-continuity fields (sequence number,
frame counter, key id). -/
structure Child where
  cslSynchronized : Bool := false
  cslPeriod : Nat := 0
  cslPhase : Nat := 0
  cslTimeout : Nat := 0
  cslChannel : Nat := 0
  cslLastHeard : Nat := 0
  lastRxTimestamp : Nat := 0
  cslTxAttempts : Nat := 0
  indirectTxAttempts : Nat := 0
  indirectMessageCount : Nat := 0
  indirectMessage : Option Nat := none
  indirectDataSequenceNumber : Nat := 0
  indirectFrameCounter : Nat := 0
  indirectKeyId : Nat := 0
deriving Repr, DecidableEq

instance : Inhabited Child := ⟨{}⟩

/-- Modelled from the spec: `Child::IsCslSynchronized` is declared in the
child-table header of the repository, which is not under `src/`.  Per the
spec, a `period` of zero is the sentinel for "no CSL window configured" and
callers of the window computation must filter such children out; the
synchronised query therefore holds only when a nonzero period is configured
(`mCslSynchronized && mCslPeriod > 0`). -/
def Child.isCslSynchronized (c : Child) : Bool :=
  c.cslSynchronized && decide (0 < c.cslPeriod)

/-- Fuel-indexed unfolding of the roll-forward loop of
`GetNextCslTransmissionDelay`:
`while (aRadioNow + mCslFrameRequestAhead >= nextTxWindow) nextTxWindow += periodInUs;`
with threshold `t = aRadioNow + mCslFrameRequestAhead` and step `p`. -/
def rollForwardAux : Nat → Nat → Nat → Nat → Nat
  | 0, _, _, w => w
  | fuel + 1, t, p, w => if w ≤ t then rollForwardAux fuel t p (w + p) else w

/-- The roll-forward loop.  For a positive step `p` the fuel `t + 1 - w`
always suffices (each iteration increases `w` by at least one, and the loop
runs only while `w ≤ t`), so this computes exactly the source loop.  For
`p = 0` the source loop would not terminate (and the preceding `% periodInUs`
is already undefined in C); the definition then returns `w` as a junk value —
the callers proved about below never reach this case. -/
def rollForward (t p w : Nat) : Nat :=
  if 0 < p then rollForwardAux (t + 1 - w) t p w else w

/-- `CslTxScheduler::GetNextCslTransmissionDelay`.  Arguments: the scheduler's
`mCslFrameRequestAhead` margin, the child, and the current radio time.
Returns the pair (return value `delay` = delay from now,
out-parameter `aDelayFromLastRx`), both truncated to 32 bits as in the
source's `static_cast<uint32_t>`. -/
def getNextCslTransmissionDelay (cslFrameRequestAhead : Nat) (c : Child)
    (radioNow : Nat) : Nat × Nat :=
  let periodInUs := c.cslPeriod * kUsPerTenSymbols
  let firstTxWindow := c.lastRxTimestamp + c.cslPhase * kUsPerTenSymbols
  let nextTxWindow :=
    rollForward (radioNow + cslFrameRequestAhead) periodInUs
      (radioNow - radioNow % periodInUs + firstTxWindow % periodInUs)
  ((nextTxWindow - radioNow) % 2 ^ 32,
   (nextTxWindow - c.lastRxTimestamp) % 2 ^ 32)

lemma rollForwardAux_gt {p : Nat} (t : Nat) (hp : 0 < p) :
    ∀ fuel w, t + 1 - w ≤ fuel → t < rollForwardAux fuel t p w := by
  intro fuel
  induction fuel with
  | zero => intro w h; simp only [rollForwardAux]; omega
  | succ n ih =>
    intro w h
    simp only [rollForwardAux]
    split
    · exact ih (w + p) (by omega)
    · omega

lemma rollForwardAux_mod {p : Nat} (t : Nat) :
    ∀ fuel w, rollForwardAux fuel t p w % p = w % p := by
  intro fuel
  induction fuel with
  | zero => intro w; simp [rollForwardAux]
  | succ n ih =>
    intro w
    simp only [rollForwardAux]
    split
    · rw [ih (w + p), Nat.add_mod_right]
    · rfl

lemma rollForwardAux_le_self {p : Nat} (t : Nat) :
    ∀ fuel w, w ≤ rollForwardAux fuel t p w := by
  intro fuel
  induction fuel with
  | zero => intro w; simp [rollForwardAux]
  | succ n ih =>
    intro w
    simp only [rollForwardAux]
    split
    · exact le_trans (Nat.le_add_right w p) (ih (w + p))
    · exact le_refl w

lemma rollForwardAux_le {p : Nat} (t : Nat) :
    ∀ fuel w, w ≤ t + p → rollForwardAux fuel t p w ≤ t + p := by
  intro fuel
  induction fuel with
  | zero => intro w h; simpa [rollForwardAux] using h
  | succ n ih =>
    intro w h
    simp only [rollForwardAux]
    split
    · exact ih (w + p) (by omega)
    · exact h

lemma rollForwardAux_min {p : Nat} (t : Nat) (hp : 0 < p) :
    ∀ fuel w x, t + 1 - w ≤ fuel → x % p = w % p → w ≤ x → t < x →
      rollForwardAux fuel t p w ≤ x := by
  intro fuel
  induction fuel with
  | zero => intro w x hf hmod hwx htx; simpa [rollForwardAux] using hwx
  | succ n ih =>
    intro w x hf hmod hwx htx
    simp only [rollForwardAux]
    split
    · rename_i hwt
      have hlt : w < x := lt_of_le_of_lt hwt htx
      have hdvd : p ∣ x - w :=
        (Nat.modEq_iff_dvd' (le_of_lt hlt)).mp (Nat.ModEq.symm hmod)
      have hstep : w + p ≤ x := by
        have := Nat.le_of_dvd (by omega) hdvd
        omega
      exact ih (w + p) x (by omega) (by rw [Nat.add_mod_right]; exact hmod)
        hstep htx
    · exact hwx

lemma rollForward_gt {p : Nat} (t w : Nat) (hp : 0 < p) :
    t < rollForward t p w := by
  simp only [rollForward, if_pos hp]
  exact rollForwardAux_gt t hp _ w (le_refl _)

lemma rollForward_mod {p : Nat} (t w : Nat) :
    rollForward t p w % p = w % p := by
  simp only [rollForward]
  split
  · exact rollForwardAux_mod t _ w
  · rfl

lemma rollForward_le_self {p : Nat} (t w : Nat) :
    w ≤ rollForward t p w := by
  simp only [rollForward]
  split
  · exact rollForwardAux_le_self t _ w
  · exact le_refl w

lemma rollForward_le {p : Nat} (t w : Nat) (h : w ≤ t + p) :
    rollForward t p w ≤ t + p := by
  simp only [rollForward]
  split
  · exact rollForwardAux_le t _ w h
  · exact h

lemma rollForward_min {p : Nat} (t w x : Nat) (hp : 0 < p)
    (hmod : x % p = w % p) (hwx : w ≤ x) (htx : t < x) :
    rollForward t p w ≤ x := by
  simp only [rollForward, if_pos hp]
  exact rollForwardAux_min t hp _ w x (le_refl _) hmod hwx htx

lemma periodInUs_pos {c : Child} (hp : 0 < c.cslPeriod) :
    0 < c.cslPeriod * kUsPerTenSymbols :=
  Nat.mul_pos hp (by norm_num [kUsPerTenSymbols])

/-- The period-aligned starting point of the roll-forward loop lies within one
period above `radioNow`. -/
lemma rollBase_le {p : Nat} (now fw : Nat) (hp : 0 < p) :
    now - now % p + fw % p ≤ now + p := by
  have h1 : now % p ≤ now := Nat.mod_le now p
  have h2 : fw % p < p := Nat.mod_lt fw hp
  omega

/-- The starting point of the roll-forward loop is congruent to the first
window time `fw = lastRxTimestamp + phase` modulo the period. -/
lemma rollBase_mod {p : Nat} (now fw : Nat) :
    (now - now % p + fw % p) % p = fw % p := by
  have h := Nat.div_add_mod now p
  have h1 : now - now % p = p * (now / p) := by omega
  rw [h1, Nat.mul_add_mod, Nat.mod_mod_of_dvd fw dvd_rfl]

/-- With a positive period and no 32-bit truncation of the returned delay,
`now` plus the returned delay-from-now is exactly the roll-forward window. -/
lemma getNextCslTransmissionDelay_window_eq (m : Nat) (c : Child) (now : Nat)
    (hp : 0 < c.cslPeriod)
    (hb : m + c.cslPeriod * kUsPerTenSymbols < 2 ^ 32) :
    now + (getNextCslTransmissionDelay m c now).1 =
      rollForward (now + m) (c.cslPeriod * kUsPerTenSymbols)
        (now - now % (c.cslPeriod * kUsPerTenSymbols)
          + (c.lastRxTimestamp + c.cslPhase * kUsPerTenSymbols)
              % (c.cslPeriod * kUsPerTenSymbols)) := by
  have hp' : 0 < c.cslPeriod * kUsPerTenSymbols := periodInUs_pos hp
  set p := c.cslPeriod * kUsPerTenSymbols with hpdef
  set fw := c.lastRxTimestamp + c.cslPhase * kUsPerTenSymbols with hfwdef
  set w := now - now % p + fw % p with hwdef
  have hbase : w ≤ now + m + p := le_trans (rollBase_le now fw hp') (by omega)
  have hgt : now + m < rollForward (now + m) p w := rollForward_gt _ _ hp'
  have hle : rollForward (now + m) p w ≤ now + m + p := rollForward_le _ _ hbase
  have hsmall : rollForward (now + m) p w - now < 2 ^ 32 := by omega
  simp only [getNextCslTransmissionDelay]
  rw [Nat.mod_eq_of_lt hsmall]
  omega

/-- C2: for a child with a positive period, the delay-from-now returned by
`GetNextCslTransmissionDelay` is at least the scheduler's
`mCslFrameRequestAhead` margin.  The side condition keeps the
`static_cast<uint32_t>` of the source lossless (it holds for any margin the
initialisation produces under a sane configuration, since the period is a
16-bit quantity). -/
theorem getNextCslTransmissionDelay_ge_requestAhead
    (m : Nat) (c : Child) (now : Nat) (hp : 0 < c.cslPeriod)
    (hb : m + c.cslPeriod * kUsPerTenSymbols < 2 ^ 32) :
    m ≤ (getNextCslTransmissionDelay m c now).1 := by
  have hp' : 0 < c.cslPeriod * kUsPerTenSymbols := periodInUs_pos hp
  have heq := getNextCslTransmissionDelay_window_eq m c now hp hb
  have hgt : now + m <
      rollForward (now + m) (c.cslPeriod * kUsPerTenSymbols)
        (now - now % (c.cslPeriod * kUsPerTenSymbols)
          + (c.lastRxTimestamp + c.cslPhase * kUsPerTenSymbols)
              % (c.cslPeriod * kUsPerTenSymbols)) := rollForward_gt _ _ hp'
  omega

theorem getNextCslTransmissionDelay_ge_requestAhead_witness :
    0 < ({ cslPeriod := 1 } : Child).cslPeriod
    ∧ 5 + ({ cslPeriod := 1 } : Child).cslPeriod * kUsPerTenSymbols < 2 ^ 32
    ∧ 5 ≤ (getNextCslTransmissionDelay 5 { cslPeriod := 1 } 1000).1 :=
  ⟨by decide, by decide,
    getNextCslTransmissionDelay_ge_requestAhead 5 { cslPeriod := 1 } 1000
      (by decide) (by decide)⟩

/-- C3: for a child with a positive period, the absolute window time
(`now` plus the returned delay-from-now) is monotonically non-decreasing in
`now`, and is always congruent to `lastRxTimestamp + phase` modulo the period
(all times in microseconds, phase and period converted from ten-symbol
units).  The side condition keeps the 32-bit cast of the source lossless. -/
theorem getNextCslTransmissionDelay_window_monotone_congruent
    (m : Nat) (c : Child) (now1 now2 : Nat) (hp : 0 < c.cslPeriod)
    (hb : m + c.cslPeriod * kUsPerTenSymbols < 2 ^ 32) (h12 : now1 ≤ now2) :
    now1 + (getNextCslTransmissionDelay m c now1).1
        ≤ now2 + (getNextCslTransmissionDelay m c now2).1
    ∧ (now1 + (getNextCslTransmissionDelay m c now1).1)
          % (c.cslPeriod * kUsPerTenSymbols)
        = (c.lastRxTimestamp + c.cslPhase * kUsPerTenSymbols)
            % (c.cslPeriod * kUsPerTenSymbols) := by
  have hp' : 0 < c.cslPeriod * kUsPerTenSymbols := periodInUs_pos hp
  set p := c.cslPeriod * kUsPerTenSymbols with hpdef
  set fw := c.lastRxTimestamp + c.cslPhase * kUsPerTenSymbols with hfwdef
  have heq1 := getNextCslTransmissionDelay_window_eq m c now1 hp hb
  have heq2 := getNextCslTransmissionDelay_window_eq m c now2 hp hb
  rw [← hpdef, ← hfwdef] at heq1 heq2
  set w1 := now1 - now1 % p + fw % p with hw1
  set w2 := now2 - now2 % p + fw % p with hw2
  constructor
  · rw [heq1, heq2]
    have hb12 : w1 ≤ w2 := by
      have hd : p * (now1 / p) ≤ p * (now2 / p) :=
        Nat.mul_le_mul_left p (Nat.div_le_div_right h12)
      have e1 := Nat.div_add_mod now1 p
      have e2 := Nat.div_add_mod now2 p
      omega
    refine rollForward_min (now1 + m) w1 (rollForward (now2 + m) p w2) hp'
      ?_ ?_ ?_
    · rw [rollForward_mod, rollBase_mod, rollBase_mod]
    · exact le_trans hb12 (rollForward_le_self _ _)
    · have := rollForward_gt (now2 + m) w2 hp'
      omega
  · rw [heq1, rollForward_mod, rollBase_mod]

theorem getNextCslTransmissionDelay_window_monotone_congruent_witness :
    0 < ({ cslPeriod := 2, cslPhase := 3, lastRxTimestamp := 100 } :
          Child).cslPeriod
    ∧ (5 : Nat) + 2 * kUsPerTenSymbols < 2 ^ 32
    ∧ (1000 : Nat) ≤ 2500
    ∧ 1000 + (getNextCslTransmissionDelay 5
          { cslPeriod := 2, cslPhase := 3, lastRxTimestamp := 100 } 1000).1
        ≤ 2500 + (getNextCslTransmissionDelay 5
          { cslPeriod := 2, cslPhase := 3, lastRxTimestamp := 100 } 2500).1
    ∧ (1000 + (getNextCslTransmissionDelay 5
          { cslPeriod := 2, cslPhase := 3, lastRxTimestamp := 100 } 1000).1)
          % (2 * kUsPerTenSymbols)
        = (100 + 3 * kUsPerTenSymbols) % (2 * kUsPerTenSymbols) :=
  ⟨by decide, by decide, by decide,
    (getNextCslTransmissionDelay_window_monotone_congruent 5
      { cslPeriod := 2, cslPhase := 3, lastRxTimestamp := 100 } 1000 2500
      (by decide) (by decide) (by decide)).1,
    (getNextCslTransmissionDelay_window_monotone_congruent 5
      { cslPeriod := 2, cslPhase := 3, lastRxTimestamp := 100 } 1000 2500
      (by decide) (by decide) (by decide)).2⟩

/-- The error codes of `otError` that `csl_tx_scheduler.cpp` distinguishes:
`OT_ERROR_NONE`, `OT_ERROR_ABORT`, `OT_ERROR_NO_ACK`,
`OT_ERROR_CHANNEL_ACCESS_FAILURE`; `other` stands for any remaining code
(reaching the completion handler with one of those trips `OT_ASSERT(false)`
in the source). -/
inductive OtError where
  | none
  | abort
  | noAck
  | channelAccessFailure
  | other
deriving Repr, DecidableEq

instance : Inhabited OtError := ⟨OtError.none⟩

/-- The fields of `Mac::TxFrame` that `csl_tx_scheduler.cpp` reads or
writes. -/
structure TxFrame where
  isARetransmission : Bool := false
  sequence : Nat := 0
  securityEnabled : Bool := false
  frameCounter : Nat := 0
  keyId : Nat := 0
  channel : Nat := 0
  txDelay : Nat := 0
  txDelayBaseTime : Nat := 0
  csmaCaEnabled : Bool := true
  isEmpty : Bool := false
deriving Repr, DecidableEq

instance : Inhabited TxFrame := ⟨{}⟩

/-- `CslTxScheduler::FrameContext` (only `mMessageNextOffset` is touched by
the scheduler itself). -/
structure FrameContext where
  messageNextOffset : Nat := 0
deriving Repr, DecidableEq

instance : Inhabited FrameContext := ⟨{}⟩

/-- The scheduler's own state: the child table (as iterated by
`Get<ChildTable>().Iterate(kInStateAnyExceptInvalid)`, with `mCslTxChild`
modelled as an index into it), `mCslTxMessage`, `mFrameContext` and
`mCslFrameRequestAhead`. -/
structure SchedState where
  children : List Child := []
  cslTxChild : Option Nat := none
  cslTxMessage : Option Nat := none
  frameContext : FrameContext := {}
  cslFrameRequestAhead : Nat := 0
deriving Repr, DecidableEq

instance : Inhabited SchedState := ⟨{}⟩

/-- Observable calls the scheduler makes into its collaborators: the
indirect sender's completion notification
(`Callbacks::HandleSentFrameToChild`), the MAC timed-transmission request
(`Mac::RequestCslFrameTransmission`), and a tripped `OT_ASSERT`. -/
inductive Event where
  | sentFrameToChild (frame : TxFrame) (ctx : FrameContext) (error : OtError)
      (childIdx : Nat)
  | requestCslFrameTransmission (delayMs : Nat)
  | assertionFailure
deriving Repr, DecidableEq

/-- Whether an event is the indirect sender's completion notification. -/
def Event.isSentToChild : Event → Bool
  | Event.sentFrameToChild _ _ _ _ => true
  | _ => false

/-- The eligibility filter of `RescheduleCslTx` (the negation of its
`continue` condition): CSL-synchronised, at least one pending indirect
message, and fewer than `kMaxCslTriggeredTxAttempts` CSL attempts.  The
attempt bound is a compile-time configuration constant declared in the
scheduler header outside `src/`; it is passed here as the argument
`maxAttempts`. -/
def cslTxEligible (maxAttempts : Nat) (c : Child) : Bool :=
  c.isCslSynchronized && decide (c.indirectMessageCount ≠ 0)
    && decide (c.cslTxAttempts < maxAttempts)

/-- The candidate scan of `RescheduleCslTx`: walks the child list carrying the
index of the next child, the minimum delay seen (`minDelayTime`) and the best
child so far (`bestChild`, as an index).  Returns the final
`(minDelayTime, bestChild)`. -/
def rescheduleLoop (m maxAttempts radioNow : Nat) :
    List Child → Nat → Nat → Option Nat → Nat × Option Nat
  | [], _, minD, best => (minD, best)
  | c :: rest, i, minD, best =>
    if cslTxEligible maxAttempts c then
      let delay := (getNextCslTransmissionDelay m c radioNow).1
      if delay < minD then
        rescheduleLoop m maxAttempts radioNow rest (i + 1) delay (Option.some i)
      else
        rescheduleLoop m maxAttempts radioNow rest (i + 1) minD best
    else
      rescheduleLoop m maxAttempts radioNow rest (i + 1) minD best

/-- `CslTxScheduler::RescheduleCslTx`, as the pure selection it performs:
returns `(minDelayTime, bestChild)` over the whole child list, starting from
`Time::kMaxDuration` and no candidate. -/
def rescheduleCslTx (m maxAttempts : Nat) (children : List Child)
    (radioNow : Nat) : Nat × Option Nat :=
  rescheduleLoop m maxAttempts radioNow children 0 kMaxDuration Option.none

/-- `RescheduleCslTx` as a state transformer: requests a MAC CSL transmission
after `minDelayTime / 1000` ms when a candidate exists, and stores the winner
(or `none`) in `mCslTxChild`. -/
def rescheduleCslTxState (maxAttempts radioNow : Nat) (s : SchedState) :
    SchedState × List Event :=
  let r := rescheduleCslTx s.cslFrameRequestAhead maxAttempts s.children
      radioNow
  ({ s with cslTxChild := r.2 },
   match r.2 with
   | Option.some _ => [Event.requestCslFrameTransmission (r.1 / 1000)]
   | Option.none => [])

lemma getD_mem : ∀ (cs : List Child) (i : Nat), i < cs.length →
    cs.getD i default ∈ cs := by
  intro cs
  induction cs with
  | nil => intro i h; simp at h
  | cons c rest ih =>
    intro i h
    cases i with
    | zero => simp
    | succ n =>
      simp only [List.getD_cons_succ]
      exact List.mem_cons_of_mem c (ih n (by simpa using h))

lemma rescheduleLoop_fst_le (m maxA now : Nat) :
    ∀ (cs : List Child) (i minD : Nat) (best : Option Nat),
      (rescheduleLoop m maxA now cs i minD best).1 ≤ minD := by
  intro cs
  induction cs with
  | nil => intro i minD best; simp [rescheduleLoop]
  | cons c rest ih =>
    intro i minD best
    simp only [rescheduleLoop]
    split
    · split
      · rename_i hlt
        exact le_trans (ih _ _ _) (le_of_lt hlt)
      · exact ih _ _ _
    · exact ih _ _ _

lemma rescheduleLoop_fst_le_delay (m maxA now : Nat) :
    ∀ (cs : List Child) (i minD : Nat) (best : Option Nat) (c : Child),
      c ∈ cs → cslTxEligible maxA c = true →
      (rescheduleLoop m maxA now cs i minD best).1 ≤
        (getNextCslTransmissionDelay m c now).1 := by
  intro cs
  induction cs with
  | nil => intro i minD best c hc; simp at hc
  | cons c0 rest ih =>
    intro i minD best c hc helig
    rcases List.mem_cons.mp hc with hc | hc
    · subst hc
      simp only [rescheduleLoop, helig, if_pos]
      split
      · exact rescheduleLoop_fst_le m maxA now rest _ _ _
      · rename_i hnlt
        exact le_trans (rescheduleLoop_fst_le m maxA now rest _ _ _)
          (by omega)
    · simp only [rescheduleLoop]
      split
      · split
        · exact ih _ _ _ c hc helig
        · exact ih _ _ _ c hc helig
      · exact ih _ _ _ c hc helig

lemma rescheduleLoop_isSome (m maxA now : Nat) :
    ∀ (cs : List Child) (i minD j : Nat),
      (rescheduleLoop m maxA now cs i minD (Option.some j)).2.isSome = true := by
  intro cs
  induction cs with
  | nil => intro i minD j; simp [rescheduleLoop]
  | cons c rest ih =>
    intro i minD j
    simp only [rescheduleLoop]
    split
    · split
      · exact ih _ _ _
      · exact ih _ _ _
    · exact ih _ _ _

lemma rescheduleLoop_none_iff (m maxA now : Nat) :
    ∀ (cs : List Child) (i minD : Nat) (best : Option Nat),
      (rescheduleLoop m maxA now cs i minD best).2 = Option.none ↔
        (best = Option.none ∧ ∀ c ∈ cs, cslTxEligible maxA c = true →
          ¬ (getNextCslTransmissionDelay m c now).1 < minD) := by
  intro cs
  induction cs with
  | nil => intro i minD best; simp [rescheduleLoop]
  | cons c0 rest ih =>
    intro i minD best
    simp only [rescheduleLoop]
    split
    · rename_i helig
      split
      · rename_i hlt
        constructor
        · intro h
          have := rescheduleLoop_isSome m maxA now rest (i + 1)
            (getNextCslTransmissionDelay m c0 now).1 i
          rw [h] at this
          simp at this
        · rintro ⟨-, hall⟩
          exact absurd hlt (hall c0 (List.mem_cons_self c0 rest) helig)
      · rename_i hnlt
        rw [ih]
        simp only [List.forall_mem_cons]
        constructor
        · rintro ⟨h1, h2⟩; exact ⟨h1, fun _ => hnlt, h2⟩
        · rintro ⟨h1, -, h2⟩; exact ⟨h1, h2⟩
    · rename_i helig
      rw [ih]
      simp only [List.forall_mem_cons]
      constructor
      · rintro ⟨h1, h2⟩
        refine ⟨h1, fun he => absurd he (by simpa using helig), h2⟩
      · rintro ⟨h1, -, h2⟩; exact ⟨h1, h2⟩

lemma rescheduleLoop_some (m maxA now : Nat) :
    ∀ (cs : List Child) (i minD : Nat) (best : Option Nat) (j : Nat),
      (rescheduleLoop m maxA now cs i minD best).2 = Option.some j →
      (best = Option.some j ∧ (rescheduleLoop m maxA now cs i minD best).1 = minD
        ∧ ∀ c ∈ cs, cslTxEligible maxA c = true →
            ¬ (getNextCslTransmissionDelay m c now).1 < minD)
      ∨ (∃ k, k < cs.length ∧ j = i + k
          ∧ cslTxEligible maxA (cs.getD k default) = true
          ∧ (rescheduleLoop m maxA now cs i minD best).1 =
              (getNextCslTransmissionDelay m (cs.getD k default) now).1
          ∧ (getNextCslTransmissionDelay m (cs.getD k default) now).1 < minD
          ∧ ∀ l, l < k → cslTxEligible maxA (cs.getD l default) = true →
              (getNextCslTransmissionDelay m (cs.getD k default) now).1 <
                (getNextCslTransmissionDelay m (cs.getD l default) now).1) := by
  intro cs
  induction cs with
  | nil =>
    intro i minD best j h
    simp only [rescheduleLoop] at h
    exact Or.inl ⟨h, rfl, by simp⟩
  | cons c0 rest ih =>
    intro i minD best j h
    by_cases helig : cslTxEligible maxA c0 = true
    · by_cases hlt : (getNextCslTransmissionDelay m c0 now).1 < minD
      · rw [show rescheduleLoop m maxA now (c0 :: rest) i minD best =
            rescheduleLoop m maxA now rest (i + 1)
              (getNextCslTransmissionDelay m c0 now).1 (Option.some i) by
          simp [rescheduleLoop, helig, hlt]] at h ⊢
        rcases ih (i + 1) _ (Option.some i) j h with
          ⟨hbest, hfst, hall⟩ | ⟨k, hk, hj, he, hfst, hd, hearlier⟩
        · refine Or.inr ⟨0, by simp, by simpa using hbest.symm, ?_, ?_, ?_, ?_⟩
          · simpa using helig
          · simpa using hfst
          · simpa using hlt
          · intro l hl; omega
        · refine Or.inr ⟨k + 1, by simpa using hk, by omega, ?_, ?_, ?_, ?_⟩
          · simpa using he
          · simpa using hfst
          · simp only [List.getD_cons_succ]
            omega
          · intro l hl hle
            cases l with
            | zero =>
              simp only [List.getD_cons_zero] at hle ⊢
              simp only [List.getD_cons_succ]
              omega
            | succ l' =>
              simp only [List.getD_cons_succ] at hle ⊢
              exact hearlier l' (by omega) hle
      · rw [show rescheduleLoop m maxA now (c0 :: rest) i minD best =
            rescheduleLoop m maxA now rest (i + 1) minD best by
          simp [rescheduleLoop, helig, hlt]] at h ⊢
        rcases ih (i + 1) minD best j h with
          ⟨hbest, hfst, hall⟩ | ⟨k, hk, hj, he, hfst, hd, hearlier⟩
        · refine Or.inl ⟨hbest, hfst, ?_⟩
          intro c hc hce
          rcases List.mem_cons.mp hc with hc | hc
          · subst hc; exact hlt
          · exact hall c hc hce
        · refine Or.inr ⟨k + 1, by simpa using hk, by omega, ?_, ?_, ?_, ?_⟩
          · simpa using he
          · simpa using hfst
          · simpa using hd
          · intro l hl hle
            cases l with
            | zero =>
              simp only [List.getD_cons_zero] at hle ⊢
              simp only [List.getD_cons_succ]
              omega
            | succ l' =>
              simp only [List.getD_cons_succ] at hle ⊢
              exact hearlier l' (by omega) hle
    · rw [show rescheduleLoop m maxA now (c0 :: rest) i minD best =
          rescheduleLoop m maxA now rest (i + 1) minD best by
        simp [rescheduleLoop, helig]] at h ⊢
      rcases ih (i + 1) minD best j h with
        ⟨hbest, hfst, hall⟩ | ⟨k, hk, hj, he, hfst, hd, hearlier⟩
      · refine Or.inl ⟨hbest, hfst, ?_⟩
        intro c hc hce
        rcases List.mem_cons.mp hc with hc | hc
        · subst hc; exact absurd hce helig
        · exact hall c hc hce
      · refine Or.inr ⟨k + 1, by simpa using hk, by omega, ?_, ?_, ?_, ?_⟩
        · simpa using he
        · simpa using hfst
        · simpa using hd
        · intro l hl hle
          cases l with
          | zero =>
            simp only [List.getD_cons_zero] at hle ⊢
            exact absurd hle helig
          | succ l' =>
            simp only [List.getD_cons_succ] at hle ⊢
            exact hearlier l' (by omega) hle

/-- C1: `RescheduleCslTx` stores in `mCslTxChild` the eligible child
(CSL-synchronised, pending indirect messages, attempt count below the
maximum) whose computed delay is minimal, ties broken in favour of the child
encountered first; it stores no child exactly when no child is eligible; and
a child whose attempt count has reached the maximum is never selected.  The
hypothesis rules out an eligible delay equal to the `Time::kMaxDuration`
sentinel (the 32-bit cast can only reach it for request-ahead margins within
`10485600` of `2 ^ 32`, far beyond any producible configuration). -/
theorem rescheduleCslTx_selects (m maxA now : Nat) (cs : List Child)
    (H : ∀ c ∈ cs, cslTxEligible maxA c = true →
      (getNextCslTransmissionDelay m c now).1 < kMaxDuration) :
    ((rescheduleCslTx m maxA cs now).2 = Option.none ↔
      ∀ c ∈ cs, cslTxEligible maxA c = false)
    ∧ ∀ j, (rescheduleCslTx m maxA cs now).2 = Option.some j →
        j < cs.length
        ∧ cslTxEligible maxA (cs.getD j default) = true
        ∧ (cs.getD j default).cslTxAttempts < maxA
        ∧ (∀ i, i < cs.length → cslTxEligible maxA (cs.getD i default) = true →
            (getNextCslTransmissionDelay m (cs.getD j default) now).1 ≤
              (getNextCslTransmissionDelay m (cs.getD i default) now).1)
        ∧ (∀ i, i < j → cslTxEligible maxA (cs.getD i default) = true →
            (getNextCslTransmissionDelay m (cs.getD j default) now).1 <
              (getNextCslTransmissionDelay m (cs.getD i default) now).1) := by
  constructor
  · simp only [rescheduleCslTx]
    rw [rescheduleLoop_none_iff m maxA now cs 0 kMaxDuration Option.none]
    constructor
    · rintro ⟨-, hall⟩
      intro c hc
      by_cases he : cslTxEligible maxA c = true
      · exact absurd (H c hc he) (hall c hc he)
      · simpa using he
    · intro hfalse
      refine ⟨rfl, ?_⟩
      intro c hc he
      rw [hfalse c hc] at he
      cases he
  · intro j hj
    simp only [rescheduleCslTx] at hj
    rcases rescheduleLoop_some m maxA now cs 0 kMaxDuration Option.none j hj
      with ⟨hbest, -, -⟩ | ⟨k, hk, hjk, he, hfst, -, hearlier⟩
    · cases hbest
    · have hjeq : j = k := by omega
      subst hjeq
      have hatt : (cs.getD j default).cslTxAttempts < maxA := by
        have h := he
        simp only [cslTxEligible, Bool.and_eq_true, decide_eq_true_eq] at h
        exact h.2
      refine ⟨hk, he, hatt, ?_, ?_⟩
      · intro i hi hei
        rw [show (getNextCslTransmissionDelay m (cs.getD j default) now).1 =
            (rescheduleLoop m maxA now cs 0 kMaxDuration Option.none).1
          from hfst.symm]
        exact rescheduleLoop_fst_le_delay m maxA now cs 0 kMaxDuration
          Option.none (cs.getD i default) (getD_mem cs i hi) hei
      · intro i hij hei
        exact hearlier i hij hei

/-- An eligible child used by the witnesses: synchronised, period 1,
one pending message, no attempts yet. -/
def wChildEligible : Child :=
  { cslSynchronized := true, cslPeriod := 1, indirectMessageCount := 1 }

/-- A child at the maximum attempt count used by the witnesses: identical to
`wChildEligible` except that its CSL attempt count is at the maximum. -/
def wChildMaxed : Child :=
  { cslSynchronized := true, cslPeriod := 1, indirectMessageCount := 1,
    cslTxAttempts := 4 }

/-- Witness child table: a maxed-out child first, then two eligible children
with identical CSL parameters (hence identical delays, a tie). -/
def wChildren : List Child := [wChildMaxed, wChildEligible, wChildEligible]

theorem rescheduleCslTx_selects_witness :
    (∀ c ∈ wChildren, cslTxEligible 4 c = true →
      (getNextCslTransmissionDelay 5 c 0).1 < kMaxDuration)
    ∧ (rescheduleCslTx 5 4 wChildren 0).2 = Option.some 1
    ∧ cslTxEligible 4 (wChildren.getD 1 default) = true
    ∧ (wChildren.getD 1 default).cslTxAttempts < 4
    ∧ (∀ i, i < wChildren.length →
        cslTxEligible 4 (wChildren.getD i default) = true →
        (getNextCslTransmissionDelay 5 (wChildren.getD 1 default) 0).1 ≤
          (getNextCslTransmissionDelay 5 (wChildren.getD i default) 0).1) :=
  ⟨by decide, by decide,
    ((rescheduleCslTx_selects 5 4 0 wChildren (by decide)).2 1 (by decide)).2.1,
    ((rescheduleCslTx_selects 5 4 0 wChildren (by decide)).2 1
      (by decide)).2.2.1,
    ((rescheduleCslTx_selects 5 4 0 wChildren (by decide)).2 1
      (by decide)).2.2.2.1⟩

/-- C7: the eligibility filter of `RescheduleCslTx` excludes every child with
`period == 0` (via the synchronised query, whose period guard is modelled from
the spec), hence any child it selects — the child `HandleFrameRequest`
subsequently recomputes timing for — has a positive period, and the modulo
arithmetic of `GetNextCslTransmissionDelay` never divides by zero on the
scheduler's own calls. -/
theorem cslTxEligible_period_pos (m maxA now : Nat) (cs : List Child) :
    (∀ c : Child, cslTxEligible maxA c = true → 0 < c.cslPeriod)
    ∧ (∀ j, (rescheduleCslTx m maxA cs now).2 = Option.some j →
        j < cs.length ∧ 0 < (cs.getD j default).cslPeriod) := by
  have hmain : ∀ c : Child, cslTxEligible maxA c = true → 0 < c.cslPeriod := by
    intro c hc
    simp only [cslTxEligible, Child.isCslSynchronized, Bool.and_eq_true,
      decide_eq_true_eq] at hc
    exact hc.1.1.2
  refine ⟨hmain, ?_⟩
  intro j hj
  simp only [rescheduleCslTx] at hj
  rcases rescheduleLoop_some m maxA now cs 0 kMaxDuration Option.none j hj
    with ⟨hbest, -, -⟩ | ⟨k, hk, hjk, he, -, -, -⟩
  · cases hbest
  · have hjeq : j = k := by omega
    subst hjeq
    exact ⟨hk, hmain _ he⟩

theorem cslTxEligible_period_pos_witness :
    cslTxEligible 4 wChildEligible = true ∧ 0 < wChildEligible.cslPeriod :=
  ⟨by decide,
    (cslTxEligible_period_pos 5 4 0 []).1 wChildEligible (by decide)⟩

/-- The per-child resets performed by `CslTxScheduler::Clear`.  All other
child fields (including the retransmission-continuity fields and the last
received timestamp, which are not CSL-specific) are untouched by the
source. -/
def clearChild (c : Child) : Child :=
  { c with cslTxAttempts := 0, cslSynchronized := false, cslChannel := 0,
           cslTimeout := 0, cslPeriod := 0, cslPhase := 0, cslLastHeard := 0 }

/-- `CslTxScheduler::Clear`. -/
def clear (s : SchedState) : SchedState :=
  { s with children := s.children.map clearChild,
           frameContext := { s.frameContext with messageNextOffset := 0 },
           cslTxChild := Option.none,
           cslTxMessage := Option.none }

/-- `CslTxScheduler::InitFrameRequestAhead`.  All arithmetic is `uint32_t` in
the source; the intermediate sums are therefore reduced `% 2 ^ 32`
(`busSpeedHz` is itself a `uint32_t`, so the first sum needs one
reduction). -/
def initFrameRequestAhead (requestAheadUs busSpeedHz : Nat) : Nat :=
  let busTxTimeUs :=
    if busSpeedHz = 0 then 0
    else ((150 * 8 * 1000000 + busSpeedHz - 1) % 2 ^ 32) / busSpeedHz
  ((requestAheadUs + busTxTimeUs + kUsPerTenSymbols - 1) % 2 ^ 32)
    / kUsPerTenSymbols

/-- The margin as the spec's claim words it: the ceiling of the configured
request-ahead time plus the ceiling of `150 * 8 * 1000000 / busSpeedHz`
(zero when the bus speed is zero), divided by the ten-symbol unit — exact
mathematical ceilings, with no 32-bit wraparound. -/
def initFrameRequestAheadSpec (requestAheadUs busSpeedHz : Nat) : Nat :=
  let busTxTimeUs :=
    if busSpeedHz = 0 then 0
    else (150 * 8 * 1000000 + busSpeedHz - 1) / busSpeedHz
  (requestAheadUs + busTxTimeUs + kUsPerTenSymbols - 1) / kUsPerTenSymbols

/-- `CslTxScheduler::HandleFrameRequest`.  The indirect sender's
`PrepareFrameForChild` is an external collaborator and is passed in as the
oracle `cb`, which may mutate the frame, the frame context and the child (all
passed by reference in the source); `panChannel` models
`Mac::GetPanChannel()` and `radioNow` the `otPlatRadioGetNow` call.  Returns
the error, the scheduler state and the frame. -/
def handleFrameRequest
    (cb : TxFrame → FrameContext → Child → OtError × TxFrame × FrameContext × Child)
    (panChannel radioNow : Nat) (s : SchedState) (frame : TxFrame) :
    OtError × SchedState × TxFrame :=
  match s.cslTxChild with
  | Option.none => (OtError.abort, s, frame)
  | Option.some idx =>
    let child0 := s.children.getD idx default
    let r := cb frame s.frameContext child0
    let e := r.1
    let frame1 := r.2.1
    let ctx1 := r.2.2.1
    let child1 := r.2.2.2
    let s1 := { s with frameContext := ctx1,
                       children := s.children.set idx child1 }
    if e = OtError.none then
      let s2 := { s1 with cslTxMessage := child1.indirectMessage }
      match child1.indirectMessage with
      | Option.none => (OtError.abort, s2, frame1)
      | Option.some _ =>
        let frame2 :=
          if 0 < child1.indirectTxAttempts || 0 < child1.cslTxAttempts then
            let f := { frame1 with isARetransmission := true,
                                   sequence := child1.indirectDataSequenceNumber }
            if f.securityEnabled then
              { f with frameCounter := child1.indirectFrameCounter,
                       keyId := child1.indirectKeyId }
            else f
          else
            { frame1 with isARetransmission := false }
        let frame3 := { frame2 with
          channel := if child1.cslChannel = 0 then panChannel
                     else child1.cslChannel }
        let frame4 := { frame3 with
          txDelay := (getNextCslTransmissionDelay s.cslFrameRequestAhead child1
            radioNow).2,
          txDelayBaseTime := child1.lastRxTimestamp % 2 ^ 32,
          csmaCaEnabled := false }
        (OtError.none, s2, frame4)
    else (e, s1, frame1)

/-- The per-child writes of the shared failure path of the child-level
`HandleSentFrame` overload: when the frame is non-empty, persist its sequence
number into the child — and, when security is enabled on the frame, its frame
counter and key id. -/
def storeContinuity (frame : TxFrame) (c : Child) : Child :=
  if frame.isEmpty then c
  else
    let c1 := { c with indirectDataSequenceNumber := frame.sequence }
    if frame.securityEnabled then
      { c1 with indirectFrameCounter := frame.frameCounter,
                indirectKeyId := frame.keyId }
    else c1

/-- The shared failure path of the child-level `HandleSentFrame` overload
(reached by `NO_ACK` fall-through, `CHANNEL_ACCESS_FAILURE` and `ABORT`):
persist the continuity fields into the child, then re-run `RescheduleCslTx`
and return without notifying the indirect sender. -/
def cslSharedFailPath (maxAttempts radioNow : Nat) (frame : TxFrame)
    (childIdx : Nat) (s : SchedState) : SchedState × List Event :=
  let c1 := storeContinuity frame (s.children.getD childIdx default)
  rescheduleCslTxState maxAttempts radioNow
    { s with children := s.children.set childIdx c1 }

/-- The child-level `CslTxScheduler::HandleSentFrame` overload, dispatching on
the transmission result for the captured child `childIdx`. -/
def handleSentFrameChild (maxAttempts radioNow : Nat) (frame : TxFrame)
    (aError : OtError) (childIdx : Nat) (s : SchedState) :
    SchedState × List Event :=
  match aError with
  | OtError.none =>
    let c := s.children.getD childIdx default
    let c1 := { c with cslTxAttempts := 0, indirectTxAttempts := 0 }
    let s1 := { s with children := s.children.set childIdx c1 }
    (s1, [Event.sentFrameToChild frame s1.frameContext OtError.none childIdx])
  | OtError.noAck =>
    let c := s.children.getD childIdx default
    let c1 := { c with cslTxAttempts := c.cslTxAttempts + 1 }
    let s1 := { s with children := s.children.set childIdx c1 }
    cslSharedFailPath maxAttempts radioNow frame childIdx s1
  | OtError.channelAccessFailure =>
    cslSharedFailPath maxAttempts radioNow frame childIdx s
  | OtError.abort =>
    cslSharedFailPath maxAttempts radioNow frame childIdx s
  | OtError.other => (s, [Event.assertionFailure])

/-- The top-level `CslTxScheduler::HandleSentFrame` overload: captures
`mCslTxChild`, returns immediately when none is captured, otherwise clears
`mCslTxChild` and `mCslTxMessage` and dispatches to the child-level
overload. -/
def handleSentFrame (maxAttempts radioNow : Nat) (frame : TxFrame)
    (aError : OtError) (s : SchedState) : SchedState × List Event :=
  match s.cslTxChild with
  | Option.none => (s, [])
  | Option.some idx =>
    handleSentFrameChild maxAttempts radioNow frame aError idx
      { s with cslTxChild := Option.none, cslTxMessage := Option.none }

/-- C8: when `mCslTxChild` is unset, `HandleFrameRequest` fails with
`OT_ERROR_ABORT` and the scheduler state and the supplied frame are returned
completely unchanged. -/
theorem handleFrameRequest_idle_aborts
    (cb : TxFrame → FrameContext → Child → OtError × TxFrame × FrameContext × Child)
    (panChannel radioNow : Nat) (s : SchedState) (frame : TxFrame)
    (h : s.cslTxChild = Option.none) :
    handleFrameRequest cb panChannel radioNow s frame =
      (OtError.abort, s, frame) := by
  simp only [handleFrameRequest, h]

theorem handleFrameRequest_idle_aborts_witness :
    ({ children := wChildren } : SchedState).cslTxChild = Option.none
    ∧ handleFrameRequest (fun f c ch => (OtError.none, f, c, ch)) 11 0
        { children := wChildren } {} =
      (OtError.abort, { children := wChildren }, {}) :=
  ⟨rfl,
    handleFrameRequest_idle_aborts (fun f c ch => (OtError.none, f, c, ch))
      11 0 { children := wChildren } {} rfl⟩

/-- C9: after `Clear()` the scheduler is idle (`mCslTxChild` and
`mCslTxMessage` unset, the frame context's message offset reset) and every
child's CSL fields — attempt count, synchronised flag, channel override,
period, phase, last-heard (and timeout) — hold their default values. -/
theorem clear_resets (s : SchedState) :
    (clear s).cslTxChild = Option.none
    ∧ (clear s).cslTxMessage = Option.none
    ∧ (clear s).frameContext.messageNextOffset = 0
    ∧ (clear s).children.all (fun c =>
        decide (c.cslTxAttempts = 0) && !c.cslSynchronized
          && decide (c.cslChannel = 0) && decide (c.cslPeriod = 0)
          && decide (c.cslPhase = 0) && decide (c.cslLastHeard = 0)
          && decide (c.cslTimeout = 0)) = true := by
  refine ⟨rfl, rfl, rfl, ?_⟩
  simp [clear, clearChild, List.all_map, Function.comp]

/-- C6 (failing input): a `HandleSentFrame` call arriving while
`mCslTxChild` is already unset but `mCslTxMessage` is still set (the state
`Update()` leaves behind when the in-flight message changed) returns with
`mCslTxMessage` still set — the `VerifyOrExit(child != nullptr)` guard runs
before the clearing assignments, so nothing is cleared and no reschedule
happens, contradicting the claim that every call leaves `inFlightMessage`
empty. -/
theorem handleSentFrame_waiting_keeps_message :
    handleSentFrame 4 0 {} OtError.noAck { cslTxMessage := Option.some 5 } =
      ({ cslTxMessage := Option.some 5 }, [])
    ∧ (handleSentFrame 4 0 {} OtError.noAck
        { cslTxMessage := Option.some 5 }).1.cslTxMessage ≠ Option.none := by
  exact ⟨rfl, by decide⟩

/-- C10 (counterexample): at `busSpeedHz = 4294967295` the source's
`uint32_t` sum `150 * 8 * 1000000 + busSpeedHz - 1` wraps around, so the
computed bus transfer time is `0` while the claimed exact-ceiling formula
gives `1`, and the resulting margins differ. -/
theorem initFrameRequestAhead_wrap_counterexample :
    initFrameRequestAhead 0 4294967295 ≠
      initFrameRequestAheadSpec 0 4294967295 := by
  decide

/-- C10 (amended): the initialisation is total at `busSpeedHz = 0` (the bus
transfer time is taken to be `0` instead of dividing by zero), and whenever
the two `uint32_t` sums do not wrap around — `1199999999 + busSpeedHz`
below `2 ^ 32`, and the configured time at most
`2 ^ 32 - 1200000160` — the margin equals the spec's exact ceiling
formula. -/
theorem initFrameRequestAhead_eq (cfg bus : Nat)
    (h1 : 150 * 8 * 1000000 + bus - 1 < 2 ^ 32)
    (h2 : cfg + 1200000159 < 2 ^ 32) :
    initFrameRequestAhead cfg bus = initFrameRequestAheadSpec cfg bus := by
  simp only [initFrameRequestAhead, initFrameRequestAheadSpec,
    kUsPerTenSymbols]
  by_cases hb : bus = 0
  · subst hb
    rw [if_pos rfl, if_pos rfl, Nat.mod_eq_of_lt (by omega)]
  · simp only [if_neg hb]
    rw [Nat.mod_eq_of_lt h1]
    have hbuspos : 0 < bus := Nat.pos_of_ne_zero hb
    have hle : (150 * 8 * 1000000 + bus - 1) / bus ≤ 1200000000 := by
      have hmul : 150 * 8 * 1000000 + bus - 1 ≤ 1200000000 * bus := by omega
      calc (150 * 8 * 1000000 + bus - 1) / bus
          ≤ 1200000000 * bus / bus := Nat.div_le_div_right hmul
        _ = bus * 1200000000 / bus := by rw [Nat.mul_comm]
        _ = 1200000000 := Nat.mul_div_cancel_left 1200000000 hbuspos
    rw [Nat.mod_eq_of_lt (by omega)]

theorem initFrameRequestAhead_eq_witness :
    150 * 8 * 1000000 + 1000000 - 1 < 2 ^ 32
    ∧ 2000 + 1200000159 < 2 ^ 32
    ∧ initFrameRequestAhead 2000 1000000 =
        initFrameRequestAheadSpec 2000 1000000 :=
  ⟨by decide, by decide,
    initFrameRequestAhead_eq 2000 1000000 (by decide) (by decide)⟩

lemma getD_set_self : ∀ (l : List Child) (i : Nat) (a : Child),
    i < l.length → (l.set i a).getD i default = a := by
  intro l
  induction l with
  | nil => intro i a h; simp at h
  | cons c rest ih =>
    intro i a h
    cases i with
    | zero => simp [List.set]
    | succ n =>
      simp only [List.set, List.getD_cons_succ]
      exact ih n a (by simpa using h)

lemma storeContinuity_cslTxAttempts (f : TxFrame) (c : Child) :
    (storeContinuity f c).cslTxAttempts = c.cslTxAttempts := by
  simp only [storeContinuity]
  split
  · rfl
  · split <;> rfl

lemma storeContinuity_seq (f : TxFrame) (c : Child) (h : f.isEmpty = false) :
    (storeContinuity f c).indirectDataSequenceNumber = f.sequence := by
  simp only [storeContinuity, h, Bool.false_eq_true, if_false]
  split <;> rfl

lemma storeContinuity_sec (f : TxFrame) (c : Child) (h : f.isEmpty = false)
    (hs : f.securityEnabled = true) :
    (storeContinuity f c).indirectFrameCounter = f.frameCounter
    ∧ (storeContinuity f c).indirectKeyId = f.keyId := by
  simp [storeContinuity, h, hs]

lemma cslSharedFailPath_children (maxA now : Nat) (f : TxFrame) (idx : Nat)
    (s : SchedState) :
    (cslSharedFailPath maxA now f idx s).1.children =
      s.children.set idx (storeContinuity f (s.children.getD idx default)) :=
  rfl

lemma handleSentFrameChild_noAck_children (maxA now : Nat) (f : TxFrame)
    (idx : Nat) (s : SchedState) (hidx : idx < s.children.length) :
    (handleSentFrameChild maxA now f OtError.noAck idx s).1.children =
      s.children.set idx (storeContinuity f
        { s.children.getD idx default with
            cslTxAttempts := (s.children.getD idx default).cslTxAttempts + 1 }) := by
  simp only [handleSentFrameChild, cslSharedFailPath_children]
  rw [getD_set_self _ _ _ hidx, List.set_set]

lemma handleSentFrameChild_caf_children (maxA now : Nat) (f : TxFrame)
    (idx : Nat) (s : SchedState) :
    (handleSentFrameChild maxA now f OtError.channelAccessFailure idx s).1.children =
      s.children.set idx (storeContinuity f (s.children.getD idx default)) :=
  rfl

lemma handleSentFrameChild_abort_children (maxA now : Nat) (f : TxFrame)
    (idx : Nat) (s : SchedState) :
    (handleSentFrameChild maxA now f OtError.abort idx s).1.children =
      s.children.set idx (storeContinuity f (s.children.getD idx default)) :=
  rfl

/-- C5: with a captured child, the child-level `HandleSentFrame` never
notifies the indirect sender on `NO_ACK`, `CHANNEL_ACCESS_FAILURE` or
`ABORT` and instead re-runs `RescheduleCslTx` (so the resulting
`mCslTxChild` is exactly the selection over the resulting child table),
while on success it notifies the indirect sender exactly once and runs no
reschedule. -/
theorem handleSentFrameChild_dispatch (maxA now : Nat) (f : TxFrame)
    (e : OtError) (idx : Nat) (s : SchedState) :
    ((e = OtError.noAck ∨ e = OtError.channelAccessFailure ∨ e = OtError.abort) →
      (handleSentFrameChild maxA now f e idx s).2.countP Event.isSentToChild = 0
      ∧ (handleSentFrameChild maxA now f e idx s).1.cslTxChild =
          (rescheduleCslTx s.cslFrameRequestAhead maxA
            (handleSentFrameChild maxA now f e idx s).1.children now).2)
    ∧ (e = OtError.none →
        (handleSentFrameChild maxA now f e idx s).2 =
          [Event.sentFrameToChild f s.frameContext OtError.none idx]
        ∧ (handleSentFrameChild maxA now f e idx s).2.countP
            Event.isSentToChild = 1) := by
  constructor
  · rintro (rfl | rfl | rfl) <;>
      refine ⟨?_, rfl⟩ <;>
      · simp only [handleSentFrameChild, cslSharedFailPath,
          rescheduleCslTxState]
        split <;>
          simp [List.countP_cons, List.countP_nil, Event.isSentToChild]
  · rintro rfl
    exact ⟨rfl, by
      simp [handleSentFrameChild, List.countP_cons, List.countP_nil,
        Event.isSentToChild]⟩

theorem handleSentFrameChild_dispatch_witness :
    (handleSentFrameChild 4 0 {} OtError.noAck 0
        { children := [wChildEligible] }).2.countP Event.isSentToChild = 0
    ∧ (handleSentFrameChild 4 0 {} OtError.none 0
        { children := [wChildEligible] }).2.countP Event.isSentToChild = 1 :=
  ⟨((handleSentFrameChild_dispatch 4 0 {} OtError.noAck 0
      { children := [wChildEligible] }).1 (Or.inl rfl)).1,
    ((handleSentFrameChild_dispatch 4 0 {} OtError.none 0
      { children := [wChildEligible] }).2 rfl).2⟩

/-- On a retry (positive CSL attempt count), a successful `HandleFrameRequest`
marks the frame as a retransmission and copies the child's stored sequence
number — and, when the populated frame has security enabled, the stored frame
counter and key id. -/
lemma handleFrameRequest_retry
    (cb : TxFrame → FrameContext → Child → OtError × TxFrame × FrameContext × Child)
    (panChannel now2 : Nat) (s2 : SchedState) (f2 f1 : TxFrame)
    (ctx1 : FrameContext) (idx msg : Nat)
    (hchild : s2.cslTxChild = Option.some idx)
    (hcb : cb f2 s2.frameContext (s2.children.getD idx default) =
      (OtError.none, f1, ctx1, s2.children.getD idx default))
    (hmsg : (s2.children.getD idx default).indirectMessage = Option.some msg)
    (hretry : 0 < (s2.children.getD idx default).cslTxAttempts) :
    (handleFrameRequest cb panChannel now2 s2 f2).1 = OtError.none
    ∧ (handleFrameRequest cb panChannel now2 s2 f2).2.2.isARetransmission = true
    ∧ (handleFrameRequest cb panChannel now2 s2 f2).2.2.sequence =
        (s2.children.getD idx default).indirectDataSequenceNumber
    ∧ (f1.securityEnabled = true →
        (handleFrameRequest cb panChannel now2 s2 f2).2.2.frameCounter =
          (s2.children.getD idx default).indirectFrameCounter
        ∧ (handleFrameRequest cb panChannel now2 s2 f2).2.2.keyId =
          (s2.children.getD idx default).indirectKeyId) := by
  simp only [handleFrameRequest, hchild]
  rw [hcb]
  dsimp only
  rw [hmsg]
  dsimp only
  rw [if_pos rfl]
  have hcond : (decide (0 < (s2.children.getD idx default).indirectTxAttempts)
      || decide (0 < (s2.children.getD idx default).cslTxAttempts)) = true := by
    simp only [Bool.or_eq_true, decide_eq_true_eq]
    exact Or.inr hretry
  rw [if_pos hcond]
  by_cases hsec : f1.securityEnabled = true
  · rw [if_pos hsec]
    exact ⟨rfl, rfl, rfl, fun _ => ⟨rfl, rfl⟩⟩
  · rw [if_neg hsec]
    exact ⟨rfl, rfl, rfl, fun hs => absurd hs hsec⟩

/-- C4: after the child-level `HandleSentFrame` with `NO_ACK`, the captured
child's CSL attempt counter is exactly one greater than before
(`CHANNEL_ACCESS_FAILURE` and `ABORT` leave it unchanged); when the failed
frame was non-empty its sequence number — and, under security, its frame
counter and key id — are stored in the child; and a subsequent successful
`HandleFrameRequest` for the same child (with the prepare-callback leaving the
child record untouched) marks the frame as a retransmission and reuses exactly
the stored values. -/
theorem handleSentFrame_noAck_continuity (maxA now : Nat) (fFail : TxFrame)
    (idx : Nat) (s : SchedState) (hidx : idx < s.children.length) :
    ((handleSentFrameChild maxA now fFail OtError.noAck idx
        s).1.children.getD idx default).cslTxAttempts
      = (s.children.getD idx default).cslTxAttempts + 1
    ∧ ((handleSentFrameChild maxA now fFail OtError.channelAccessFailure idx
        s).1.children.getD idx default).cslTxAttempts
      = (s.children.getD idx default).cslTxAttempts
    ∧ ((handleSentFrameChild maxA now fFail OtError.abort idx
        s).1.children.getD idx default).cslTxAttempts
      = (s.children.getD idx default).cslTxAttempts
    ∧ (fFail.isEmpty = false →
        ((handleSentFrameChild maxA now fFail OtError.noAck idx
            s).1.children.getD idx default).indirectDataSequenceNumber
          = fFail.sequence
        ∧ (fFail.securityEnabled = true →
            ((handleSentFrameChild maxA now fFail OtError.noAck idx
                s).1.children.getD idx default).indirectFrameCounter
              = fFail.frameCounter
            ∧ ((handleSentFrameChild maxA now fFail OtError.noAck idx
                s).1.children.getD idx default).indirectKeyId
              = fFail.keyId))
    ∧ (∀ (cb : TxFrame → FrameContext → Child →
          OtError × TxFrame × FrameContext × Child)
        (panChannel now2 : Nat) (s2 : SchedState) (f2 f1 : TxFrame)
        (ctx1 : FrameContext) (msg : Nat),
        s2.cslTxChild = Option.some idx →
        s2.children =
          (handleSentFrameChild maxA now fFail OtError.noAck idx
            s).1.children →
        cb f2 s2.frameContext (s2.children.getD idx default) =
          (OtError.none, f1, ctx1, s2.children.getD idx default) →
        (s2.children.getD idx default).indirectMessage = Option.some msg →
        fFail.isEmpty = false →
        (handleFrameRequest cb panChannel now2 s2 f2).1 = OtError.none
        ∧ (handleFrameRequest cb panChannel now2 s2 f2).2.2.isARetransmission
            = true
        ∧ (handleFrameRequest cb panChannel now2 s2 f2).2.2.sequence =
            fFail.sequence
        ∧ (f1.securityEnabled = true → fFail.securityEnabled = true →
            (handleFrameRequest cb panChannel now2 s2 f2).2.2.frameCounter =
              fFail.frameCounter
            ∧ (handleFrameRequest cb panChannel now2 s2 f2).2.2.keyId =
              fFail.keyId)) := by
  have hnc := handleSentFrameChild_noAck_children maxA now fFail idx s hidx
  have hgetN : (handleSentFrameChild maxA now fFail OtError.noAck idx
      s).1.children.getD idx default =
        storeContinuity fFail
          { s.children.getD idx default with
              cslTxAttempts := (s.children.getD idx default).cslTxAttempts + 1 } := by
    rw [hnc]
    exact getD_set_self _ _ _ hidx
  have hgetC : (handleSentFrameChild maxA now fFail
      OtError.channelAccessFailure idx s).1.children.getD idx default =
        storeContinuity fFail (s.children.getD idx default) := by
    rw [handleSentFrameChild_caf_children]
    exact getD_set_self _ _ _ hidx
  have hgetA : (handleSentFrameChild maxA now fFail OtError.abort idx
      s).1.children.getD idx default =
        storeContinuity fFail (s.children.getD idx default) := by
    rw [handleSentFrameChild_abort_children]
    exact getD_set_self _ _ _ hidx
  refine ⟨?_, ?_, ?_, ?_, ?_⟩
  · rw [hgetN, storeContinuity_cslTxAttempts]
  · rw [hgetC, storeContinuity_cslTxAttempts]
  · rw [hgetA, storeContinuity_cslTxAttempts]
  · intro hne
    refine ⟨?_, fun hs => ?_⟩
    · rw [hgetN, storeContinuity_seq _ _ hne]
    · rw [hgetN]
      exact storeContinuity_sec _ _ hne hs
  · intro cb panChannel now2 s2 f2 f1 ctx1 msg hchild hs2ch hcb hmsg hne
    have hch2 : s2.children.getD idx default =
        storeContinuity fFail
          { s.children.getD idx default with
              cslTxAttempts := (s.children.getD idx default).cslTxAttempts + 1 } := by
      rw [hs2ch]
      exact hgetN
    have hretry : 0 < (s2.children.getD idx default).cslTxAttempts := by
      rw [hch2, storeContinuity_cslTxAttempts]
      exact Nat.succ_pos _
    have hmain := handleFrameRequest_retry cb panChannel now2 s2 f2 f1 ctx1
      idx msg hchild hcb hmsg hretry
    refine ⟨hmain.1, hmain.2.1, ?_, fun hs1 hsF => ?_⟩
    · rw [hmain.2.2.1, hch2, storeContinuity_seq _ _ hne]
    · have hsec := storeContinuity_sec fFail
        { s.children.getD idx default with
            cslTxAttempts := (s.children.getD idx default).cslTxAttempts + 1 }
        hne hsF
      have h1 := (hmain.2.2.2 hs1).1
      have h2 := (hmain.2.2.2 hs1).2
      rw [hch2] at h1 h2
      exact ⟨h1.trans hsec.1, h2.trans hsec.2⟩

/-- The failed frame used by the C4 witness. -/
def wFailFrame : TxFrame :=
  { sequence := 33, securityEnabled := true, frameCounter := 44, keyId := 2 }

/-- The child used by the C4 witness: synchronised with a pending message. -/
def wChildMsg : Child :=
  { cslSynchronized := true, cslPeriod := 1, indirectMessageCount := 1,
    indirectMessage := Option.some 7 }

/-- Initial scheduler state of the C4 witness. -/
def wState4 : SchedState := { children := [wChildMsg] }

/-- Scheduler state of the C4 witness after the `NO_ACK` completion, with the
same child re-selected. -/
def wState4After : SchedState :=
  { (handleSentFrameChild 4 0 wFailFrame OtError.noAck 0 wState4).1 with
      cslTxChild := Option.some 0 }

/-- Prepare-callback of the C4 witness: succeeds, enables security on the
frame, and leaves context and child untouched. -/
def wCb : TxFrame → FrameContext → Child →
    OtError × TxFrame × FrameContext × Child :=
  fun f c ch => (OtError.none, { f with securityEnabled := true }, c, ch)

theorem handleSentFrame_noAck_continuity_witness :
    ((handleSentFrameChild 4 0 wFailFrame OtError.noAck 0
        wState4).1.children.getD 0 default).cslTxAttempts
      = (wState4.children.getD 0 default).cslTxAttempts + 1
    ∧ (handleFrameRequest wCb 11 0 wState4After {}).2.2.isARetransmission
        = true
    ∧ (handleFrameRequest wCb 11 0 wState4After {}).2.2.sequence = 33
    ∧ (handleFrameRequest wCb 11 0 wState4After {}).2.2.frameCounter = 44 := by
  have h := handleSentFrame_noAck_continuity 4 0 wFailFrame 0 wState4
    (by decide)
  have hc := h.2.2.2.2 wCb 11 0 wState4After {}
    ({ securityEnabled := true } : TxFrame) ({} : FrameContext) 7
    rfl rfl rfl (by decide) rfl
  exact ⟨h.1, hc.2.1, hc.2.2.1, (hc.2.2.2 rfl rfl).1⟩

end CslTx
